import Mathlib

/-!
Verification of the alaric rendezvous broker against its specification.

The development shallowly embeds the Rust sources:
  * `src/lib/src/protocol/framing.rs`  — length-prefixed wire framing
  * `src/lib/src/protocol/secure.rs`   — Noise XX secure channel layer
  * `src/lib/src/types/ids.rs`         — identifier validation
  * `src/server/src/connection.rs`, `state.rs`, `responses.rs` — server
    handshake, rendezvous and splice
  * `src/agent/src/app.rs`             — agent driver

Bytes are modelled as `Nat` (values < 256 where it matters), machine
integers as `Nat` with explicit `% 2 ^ w` where wrap-around matters,
streams as lists of bytes or events, and fallible operations as
`Except`.
-/

namespace Alaric

/-! ## Wire framing — src/lib/src/protocol/framing.rs -/

/-- `MAX_FRAME_BYTES` from framing.rs: `64 * 1024`. -/
def MAX_FRAME_BYTES : Nat := 64 * 1024

/-- `ProtocolError` from framing.rs.  The `Io` payload (an `io::Error`) and
the `Json` payload (a `serde_json::Error`) are abstracted to the fact that
they occurred. -/
inductive ProtocolError where
  | ioErr
  | jsonErr
  | frameTooLarge (size : Nat)
deriving DecidableEq, Repr

/-- Big-endian byte serialisation of a `u32`, as performed by
`writer.write_u32(payload.len() as u32)`: the `as u32` cast truncates
modulo `2 ^ 32`, then four big-endian bytes are emitted. -/
def u32beBytes (n : Nat) : List Nat :=
  let m := n % 4294967296
  [m / 16777216 % 256, m / 65536 % 256, m / 256 % 256, m % 256]

/-- `reader.read_u32()`: consume four bytes from the stream and combine
them big-endian; fail (I/O error) if fewer than four bytes remain. -/
def readU32be : List Nat → Except ProtocolError (Nat × List Nat)
  | b0 :: b1 :: b2 :: b3 :: rest =>
      .ok (b0 * 16777216 + b1 * 65536 + b2 * 256 + b3, rest)
  | _ => .error .ioErr

/-- `write_bytes_frame` from framing.rs.  The writer is modelled by the
list of bytes it emits: on success the result is the emitted frame
(length prefix followed by the payload); the oversize check precedes any
write, so the error case emits nothing. -/
def write_bytes_frame (payload : List Nat) : Except ProtocolError (List Nat) :=
  if payload.length > MAX_FRAME_BYTES then
    .error (.frameTooLarge payload.length)
  else
    .ok (u32beBytes payload.length ++ payload)

/-- `read_bytes_frame` from framing.rs, over an input byte stream.
Returns the payload together with the unconsumed remainder of the
stream.  `read_exact` fails with an I/O error if the stream ends
early. -/
def read_bytes_frame (stream : List Nat) : Except ProtocolError (List Nat × List Nat) :=
  match readU32be stream with
  | .error e => .error e
  | .ok (len, rest) =>
    if len > MAX_FRAME_BYTES then
      .error (.frameTooLarge len)
    else if len ≤ rest.length then
      .ok (rest.take len, rest.drop len)
    else
      .error .ioErr

theorem u32beBytes_decode (n : Nat) (h : n < 4294967296) :
    ∀ rest, readU32be (u32beBytes n ++ rest) = .ok (n, rest) := by
  intro rest
  simp only [u32beBytes, readU32be, List.cons_append, List.nil_append]
  congr 2
  omega

/-- C6: a payload of at most 65 536 bytes written with
`write_bytes_frame` and read back with `read_bytes_frame` round-trips
byte-identically (with the remainder of the stream untouched); a longer
payload makes `write_bytes_frame` fail with `frame_too_large` without
emitting any bytes (the error branch of the writer model produces no
output). -/
theorem C6_frame_roundtrip (payload : List Nat) :
    (payload.length ≤ MAX_FRAME_BYTES →
      write_bytes_frame payload = .ok (u32beBytes payload.length ++ payload) ∧
      ∀ rest, read_bytes_frame (u32beBytes payload.length ++ payload ++ rest) =
        .ok (payload, rest)) ∧
    (payload.length > MAX_FRAME_BYTES →
      write_bytes_frame payload = .error (.frameTooLarge payload.length)) := by
  constructor
  · intro hle
    constructor
    · simp [write_bytes_frame, Nat.not_lt.mpr hle]
    · intro rest
      have hlt : payload.length < 4294967296 := by
        have : MAX_FRAME_BYTES = 65536 := rfl
        omega
      rw [List.append_assoc]
      unfold read_bytes_frame
      rw [u32beBytes_decode payload.length hlt]
      have hlen : payload.length ≤ (payload ++ rest).length := by
        simp [List.length_append]
      simp only [Nat.not_lt.mpr hle, if_false, if_pos hlen, if_neg (Nat.not_lt.mpr hle)]
      rw [List.take_left, List.drop_left]
  · intro hgt
    simp [write_bytes_frame, hgt]

/-- Witness for C6 at a concrete three-byte payload and a concrete
oversize payload. -/
theorem C6_frame_roundtrip_witness :
    write_bytes_frame [10, 20, 30] = .ok [0, 0, 0, 3, 10, 20, 30] ∧
    read_bytes_frame [0, 0, 0, 3, 10, 20, 30, 99] = .ok ([10, 20, 30], [99]) ∧
    write_bytes_frame (List.replicate 65537 0) =
      .error (.frameTooLarge 65537) := by
  refine ⟨?_, ?_, ?_⟩
  · exact ((C6_frame_roundtrip [10, 20, 30]).1 (by decide)).1
  · have h := ((C6_frame_roundtrip [10, 20, 30]).1 (by decide)).2 [99]
    have he : u32beBytes ([10, 20, 30] : List Nat).length = [0, 0, 0, 3] := by decide
    rw [he] at h
    exact h
  · have h := (C6_frame_roundtrip (List.replicate 65537 0)).2
      (by rw [List.length_replicate]; decide)
    rw [List.length_replicate] at h
    exact h

/-! ## Identifier validation — src/lib/src/types/ids.rs -/

/-- `MIN_ID_LEN` from ids.rs. -/
def MIN_ID_LEN : Nat := 3

/-- `MAX_ID_LEN` from ids.rs. -/
def MAX_ID_LEN : Nat := 64

/-- `IdError` from ids.rs: a kind tag and a human message. -/
structure IdError where
  kind : String
  message : String
deriving DecidableEq, Repr

/-- The ASCII apostrophe character, used in the ids.rs error message. -/
def squote : String := (Char.ofNat 39).toString

/-- The length-error message produced by `validate_id`. -/
def idLenMessage : String :=
  "must be between " ++ toString MIN_ID_LEN ++ " and " ++ toString MAX_ID_LEN ++
    " characters"

/-- The character-class error message produced by `validate_id`. -/
def idCharsMessage : String :=
  "contains invalid characters (allowed: a-z, A-Z, 0-9, " ++ squote ++ "-" ++
    squote ++ ", " ++ squote ++ "_" ++ squote ++ ", " ++ squote ++ "." ++ squote ++ ")"

/-- `u8::is_ascii_alphanumeric`. -/
def isAsciiAlphanumeric (b : Nat) : Bool :=
  (48 ≤ b && b ≤ 57) || (65 ≤ b && b ≤ 90) || (97 ≤ b && b ≤ 122)

/-- The per-byte test of `validate_id`:
`b.is_ascii_alphanumeric() || matches!(b, 45 | 95 | 46)` (the byte values
of the hyphen, underscore and dot characters). -/
def idByteAllowed (b : Nat) : Bool :=
  isAsciiAlphanumeric b || (b == 45 || b == 95 || b == 46)

/-- `validate_id` from ids.rs.  A Rust `String` is modelled by its UTF-8
byte sequence; `value.len()` is the byte length and `value.bytes()` the
bytes. -/
def validate_id (kind : String) (value : List Nat) : Except IdError Unit :=
  let len := value.length
  if ¬ (MIN_ID_LEN ≤ len ∧ len ≤ MAX_ID_LEN) then
    .error ⟨kind, idLenMessage⟩
  else if ¬ (value.all idByteAllowed) then
    .error ⟨kind, idCharsMessage⟩
  else
    .ok ()

/-- `AgentId` from ids.rs (a validated string, kept as bytes). -/
structure AgentId where
  value : List Nat
deriving DecidableEq, Repr

/-- `AgentId::new`. -/
def AgentId.new (value : List Nat) : Except IdError AgentId :=
  match validate_id "agent" value with
  | .error e => .error e
  | .ok _ => .ok ⟨value⟩

/-- `ClientId` from ids.rs. -/
structure ClientId where
  value : List Nat
deriving DecidableEq, Repr

/-- `ClientId::new`. -/
def ClientId.new (value : List Nat) : Except IdError ClientId :=
  match validate_id "client" value with
  | .error e => .error e
  | .ok _ => .ok ⟨value⟩

/-- The `Display` rendering of `IdError`: `"{kind} id {message}"`. -/
def IdError.render (e : IdError) : String :=
  e.kind ++ " id " ++ e.message

/-- `AgentId::deserialize`: deserialise the underlying string, then run
`AgentId::new`, mapping the `IdError` through `serde::de::Error::custom`
(which stringifies it). -/
def AgentId.deserialize (value : List Nat) : Except String AgentId :=
  match AgentId.new value with
  | .error e => .error e.render
  | .ok a => .ok a

/-- `ClientId::deserialize`, same shape as `AgentId::deserialize`. -/
def ClientId.deserialize (value : List Nat) : Except String ClientId :=
  match ClientId.new value with
  | .error e => .error e.render
  | .ok a => .ok a

/-- Whether an `Except` computation succeeded. -/
def exceptIsOk {ε α : Type} : Except ε α → Bool
  | .ok _ => true
  | .error _ => false

/-- The specification's byte class `[A-Za-z0-9._-]`, written with
explicit ASCII code ranges (digits 48–57, uppercase 65–90, lowercase
97–122, dot 46, underscore 95, hyphen 45). -/
def specIdByte (b : Nat) : Prop :=
  (48 ≤ b ∧ b ≤ 57) ∨ (65 ≤ b ∧ b ≤ 90) ∨ (97 ≤ b ∧ b ≤ 122) ∨
    b = 46 ∨ b = 95 ∨ b = 45

theorem idByteAllowed_iff (b : Nat) : idByteAllowed b = true ↔ specIdByte b := by
  simp only [idByteAllowed, isAsciiAlphanumeric, specIdByte, Bool.or_eq_true,
    Bool.and_eq_true, decide_eq_true_eq, beq_iff_eq]
  omega

theorem validate_id_ok_iff (kind : String) (s : List Nat) :
    validate_id kind s = .ok () ↔
      (MIN_ID_LEN ≤ s.length ∧ s.length ≤ MAX_ID_LEN ∧ ∀ b ∈ s, specIdByte b) := by
  unfold validate_id
  by_cases h1 : MIN_ID_LEN ≤ s.length ∧ s.length ≤ MAX_ID_LEN
  · rw [if_neg (not_not_intro h1)]
    by_cases h2 : s.all idByteAllowed = true
    · rw [if_neg (not_not_intro h2)]
      constructor
      · intro _
        exact ⟨h1.1, h1.2, fun b hb => (idByteAllowed_iff b).mp
          (List.all_eq_true.mp h2 b hb)⟩
      · intro _; rfl
    · rw [if_pos h2]
      constructor
      · intro h; cases h
      · intro ⟨_, _, hall⟩
        exact absurd (List.all_eq_true.mpr fun b hb =>
          (idByteAllowed_iff b).mpr (hall b hb)) h2
  · rw [if_pos h1]
    constructor
    · intro h; cases h
    · intro ⟨ha, hb, _⟩; exact absurd ⟨ha, hb⟩ h1

theorem agentIdNew_ok_iff (s : List Nat) :
    exceptIsOk (AgentId.new s) = true ↔ validate_id "agent" s = .ok () := by
  unfold AgentId.new
  cases h : validate_id "agent" s with
  | error e => simp [exceptIsOk, h]
  | ok u => cases u; simp [exceptIsOk, h]

theorem clientIdNew_ok_iff (s : List Nat) :
    exceptIsOk (ClientId.new s) = true ↔ validate_id "client" s = .ok () := by
  unfold ClientId.new
  cases h : validate_id "client" s with
  | error e => simp [exceptIsOk, h]
  | ok u => cases u; simp [exceptIsOk, h]

/-- C7: `AgentId::new` (and `ClientId::new`) succeed exactly when the
byte length is between 3 and 64 and every byte is an ASCII letter,
digit, dot, underscore or hyphen; deserialisation succeeds exactly when
construction does (it applies the same `validate_id`), failing with the
rendered ID error otherwise. -/
theorem C7_id_validation (s : List Nat) :
    (exceptIsOk (AgentId.new s) = true ↔
      (3 ≤ s.length ∧ s.length ≤ 64 ∧ ∀ b ∈ s, specIdByte b)) ∧
    (exceptIsOk (ClientId.new s) = true ↔
      (3 ≤ s.length ∧ s.length ≤ 64 ∧ ∀ b ∈ s, specIdByte b)) ∧
    exceptIsOk (AgentId.deserialize s) = exceptIsOk (AgentId.new s) ∧
    exceptIsOk (ClientId.deserialize s) = exceptIsOk (ClientId.new s) := by
  refine ⟨?_, ?_, ?_, ?_⟩
  · rw [agentIdNew_ok_iff, validate_id_ok_iff]
    exact Iff.rfl
  · rw [clientIdNew_ok_iff, validate_id_ok_iff]
    exact Iff.rfl
  · unfold AgentId.deserialize
    cases h : AgentId.new s with
    | error e => simp [exceptIsOk, h]
    | ok a => simp [exceptIsOk, h]
  · unfold ClientId.deserialize
    cases h : ClientId.new s with
    | error e => simp [exceptIsOk, h]
    | ok a => simp [exceptIsOk, h]

/-! ## Noise secure channel — src/lib/src/protocol/secure.rs -/

/-- Modelled from the spec: `DHLEN` lives in the `security::noise::consts`
module, which is not under src/; §4.4 fixes the DH length at 32. -/
def DHLEN : Nat := 32

/-- Modelled from the spec: `MAC_LENGTH` lives in the missing
`security::noise::consts` module; §4.4 fixes the MAC length at 16. -/
def MAC_LENGTH : Nat := 16

/-- `NOISE_PROLOGUE` from secure.rs. -/
def NOISE_PROLOGUE : String := "alaric/noise-xx-v1"

/-- `NOISE_HANDSHAKE_MSG_A_LEN` from secure.rs: `DHLEN + MAC_LENGTH`. -/
def NOISE_HANDSHAKE_MSG_A_LEN : Nat := DHLEN + MAC_LENGTH

/-- `NOISE_HANDSHAKE_MSG_B_LEN` from secure.rs: `2·DHLEN + 2·MAC_LENGTH`. -/
def NOISE_HANDSHAKE_MSG_B_LEN : Nat := (2 * DHLEN) + (2 * MAC_LENGTH)

/-- `NOISE_HANDSHAKE_MSG_C_LEN` from secure.rs: `DHLEN + 2·MAC_LENGTH`. -/
def NOISE_HANDSHAKE_MSG_C_LEN : Nat := DHLEN + (2 * MAC_LENGTH)

/-- Modelled from the spec: the error type of the missing
`security::noise` library (§7 lists only `noise_cryptographic`). -/
inductive NoiseError where
  | cryptographic
deriving DecidableEq, Repr

/-- Modelled from the spec: a static keypair from the missing
`security::noise::types` module. -/
structure Keypair where
  secretKey : List Nat
  publicKey : List Nat
deriving DecidableEq, Repr

/-- `SecureChannelError` from secure.rs. -/
inductive SecureChannelError where
  | protocolErr (e : ProtocolError)
  | noiseErr (e : NoiseError)
  | invalidHandshakeMessageLength (step : String) (expected got : Nat)
  | transportMessageTooLarge (len : Nat)
  | transportFrameTooSmall (len : Nat)
  | handshakeIncomplete
deriving DecidableEq, Repr

/-- Modelled from the spec (§9): the interface of the missing
`security::noise` library — `init_session(initiator, prologue, static_key)`,
`send_message(buf)` / `recv_message(buf)` operating in place on a buffer,
and `is_transport()`.  The session state `σ` and message transformations
are abstract oracle parameters; the in-place mutation is modelled by
returning the evolved session and the transformed buffer. -/
structure NoiseOracle (σ : Type) where
  initSession : Bool → String → Keypair → σ
  sendMessage : σ → List Nat → Except NoiseError (σ × List Nat)
  recvMessage : σ → List Nat → Except NoiseError (σ × List Nat)
  isTransport : σ → Bool

/-- `validate_handshake_len` from secure.rs. -/
def validate_handshake_len (step : String) (frame : List Nat) (expected : Nat) :
    Except SecureChannelError Unit :=
  if frame.length ≠ expected then
    .error (.invalidHandshakeMessageLength step expected frame.length)
  else
    .ok ()

/-- Result of a completed handshake: the transport-phase session, the
bytes written to the stream, and the unread remainder of the input. -/
structure HandshakeOutcome (σ : Type) where
  session : σ
  written : List Nat
  remaining : List Nat
deriving DecidableEq, Repr

/-- `SecureChannel::handshake_xx_responder` from secure.rs, over an input
byte stream.  Reads message A, validates its length, feeds it to the
session, produces and writes message B, reads and validates message C,
feeds it to the session, then requires transport phase. -/
def handshake_xx_responder {σ : Type} (O : NoiseOracle σ) (static_keypair : Keypair)
    (input : List Nat) : Except SecureChannelError (HandshakeOutcome σ) :=
  match read_bytes_frame input with
  | .error e => .error (.protocolErr e)
  | .ok (msg_a, rest1) =>
    match validate_handshake_len "message_a" msg_a NOISE_HANDSHAKE_MSG_A_LEN with
    | .error e => .error e
    | .ok _ =>
      match O.recvMessage (O.initSession false NOISE_PROLOGUE static_keypair) msg_a with
      | .error e => .error (.noiseErr e)
      | .ok (s1, _) =>
        match O.sendMessage s1 (List.replicate NOISE_HANDSHAKE_MSG_B_LEN 0) with
        | .error e => .error (.noiseErr e)
        | .ok (s2, msg_b) =>
          match write_bytes_frame msg_b with
          | .error e => .error (.protocolErr e)
          | .ok frame_b =>
            match read_bytes_frame rest1 with
            | .error e => .error (.protocolErr e)
            | .ok (msg_c, rest2) =>
              match validate_handshake_len "message_c" msg_c NOISE_HANDSHAKE_MSG_C_LEN with
              | .error e => .error e
              | .ok _ =>
                match O.recvMessage s2 msg_c with
                | .error e => .error (.noiseErr e)
                | .ok (s3, _) =>
                  if O.isTransport s3 then
                    .ok ⟨s3, frame_b, rest2⟩
                  else
                    .error .handshakeIncomplete

/-- `SecureChannel::handshake_xx_initiator` from secure.rs, over an input
byte stream. -/
def handshake_xx_initiator {σ : Type} (O : NoiseOracle σ) (static_keypair : Keypair)
    (input : List Nat) : Except SecureChannelError (HandshakeOutcome σ) :=
  match O.sendMessage (O.initSession true NOISE_PROLOGUE static_keypair)
      (List.replicate NOISE_HANDSHAKE_MSG_A_LEN 0) with
  | .error e => .error (.noiseErr e)
  | .ok (s1, msg_a) =>
    match write_bytes_frame msg_a with
    | .error e => .error (.protocolErr e)
    | .ok frame_a =>
      match read_bytes_frame input with
      | .error e => .error (.protocolErr e)
      | .ok (msg_b, rest1) =>
        match validate_handshake_len "message_b" msg_b NOISE_HANDSHAKE_MSG_B_LEN with
        | .error e => .error e
        | .ok _ =>
          match O.recvMessage s1 msg_b with
          | .error e => .error (.noiseErr e)
          | .ok (s2, _) =>
            match O.sendMessage s2 (List.replicate NOISE_HANDSHAKE_MSG_C_LEN 0) with
            | .error e => .error (.noiseErr e)
            | .ok (s3, msg_c) =>
              match write_bytes_frame msg_c with
              | .error e => .error (.protocolErr e)
              | .ok frame_c =>
                if O.isTransport s3 then
                  .ok ⟨s3, frame_a ++ frame_c, rest1⟩
                else
                  .error .handshakeIncomplete

/-- `SecureChannel::send` from secure.rs.  The `checked_add` cannot
overflow in the `Nat` model; in Rust an overflow would also surface as
`TransportMessageTooLarge`, and every overflowing length already exceeds
`MAX_FRAME_BYTES`, so the two models agree.  On success the result is
the evolved session and the bytes written to the stream. -/
def SecureChannel.send {σ : Type} (O : NoiseOracle σ) (session : σ)
    (plaintext : List Nat) : Except SecureChannelError (σ × List Nat) :=
  if plaintext.length + MAC_LENGTH > MAX_FRAME_BYTES then
    .error (.transportMessageTooLarge plaintext.length)
  else
    match O.sendMessage session (plaintext ++ List.replicate MAC_LENGTH 0) with
    | .error e => .error (.noiseErr e)
    | .ok (s2, cipher) =>
      match write_bytes_frame cipher with
      | .error e => .error (.protocolErr e)
      | .ok frame => .ok (s2, frame)

/-- A concrete oracle for witnesses: sessions are `Unit`, messages pass
through unchanged, and the session is always in transport phase. -/
def trivialOracle : NoiseOracle Unit where
  initSession := fun _ _ _ => ()
  sendMessage := fun s buf => .ok (s, buf)
  recvMessage := fun s buf => .ok (s, buf)
  isTransport := fun _ => true

theorem msg_a_len_eq : NOISE_HANDSHAKE_MSG_A_LEN = 48 := rfl

theorem msg_b_len_eq : NOISE_HANDSHAKE_MSG_B_LEN = 96 := rfl

theorem msg_c_len_eq : NOISE_HANDSHAKE_MSG_C_LEN = 64 := rfl

/-- C2 counterexample: message A is not 32 bytes — secure.rs sets
`NOISE_HANDSHAKE_MSG_A_LEN = DHLEN + MAC_LENGTH = 48` — and the
responder rejects a 32-byte message A frame (which the claim calls
well-sized) with `invalid_handshake_message_length`. -/
theorem C2_message_a_counterexample :
    NOISE_HANDSHAKE_MSG_A_LEN ≠ 32 ∧
    handshake_xx_responder trivialOracle ⟨[], []⟩
        (u32beBytes 32 ++ List.replicate 32 0) =
      .error (.invalidHandshakeMessageLength "message_a" 48 32) := by
  exact ⟨by decide, rfl⟩

/-- C2 amended: Noise XX handshake message A is exactly 48 bytes
(`DHLEN + MAC_LENGTH`), message B exactly 96 bytes and message C exactly
64 bytes; a receiver of a handshake frame whose length differs from the
expected size for its step fails with `invalid_handshake_message_length`
carrying the step name, expected and got sizes, before any cryptographic
processing of that frame — the outcome is the same for every crypto
oracle `O`. -/
theorem C2_handshake_message_sizes :
    (NOISE_HANDSHAKE_MSG_A_LEN = 48 ∧ NOISE_HANDSHAKE_MSG_B_LEN = 96 ∧
      NOISE_HANDSHAKE_MSG_C_LEN = 64) ∧
    (∀ (σ : Type) (O : NoiseOracle σ) (kp : Keypair) (input msg_a rest1 : List Nat),
      read_bytes_frame input = .ok (msg_a, rest1) →
      msg_a.length ≠ 48 →
      handshake_xx_responder O kp input =
        .error (.invalidHandshakeMessageLength "message_a" 48 msg_a.length)) ∧
    (∀ (σ : Type) (O : NoiseOracle σ) (kp : Keypair) (input : List Nat) (s1 : σ)
        (msg_a msg_b rest1 : List Nat),
      O.sendMessage (O.initSession true NOISE_PROLOGUE kp)
          (List.replicate NOISE_HANDSHAKE_MSG_A_LEN 0) = .ok (s1, msg_a) →
      msg_a.length ≤ MAX_FRAME_BYTES →
      read_bytes_frame input = .ok (msg_b, rest1) →
      msg_b.length ≠ 96 →
      handshake_xx_initiator O kp input =
        .error (.invalidHandshakeMessageLength "message_b" 96 msg_b.length)) ∧
    (∀ (σ : Type) (O : NoiseOracle σ) (kp : Keypair) (input msg_a rest1 : List Nat)
        (s1 : σ) (plain : List Nat) (s2 : σ) (msg_b msg_c rest2 : List Nat),
      read_bytes_frame input = .ok (msg_a, rest1) →
      msg_a.length = 48 →
      O.recvMessage (O.initSession false NOISE_PROLOGUE kp) msg_a = .ok (s1, plain) →
      O.sendMessage s1 (List.replicate NOISE_HANDSHAKE_MSG_B_LEN 0) = .ok (s2, msg_b) →
      msg_b.length ≤ MAX_FRAME_BYTES →
      read_bytes_frame rest1 = .ok (msg_c, rest2) →
      msg_c.length ≠ 64 →
      handshake_xx_responder O kp input =
        .error (.invalidHandshakeMessageLength "message_c" 64 msg_c.length)) := by
  refine ⟨⟨rfl, rfl, rfl⟩, ?_, ?_, ?_⟩
  · intro σ O kp input msg_a rest1 hread hne
    unfold handshake_xx_responder
    rw [hread]
    simp only [validate_handshake_len, msg_a_len_eq, if_pos hne]
  · intro σ O kp input s1 msg_a msg_b rest1 hsend hlen hread hne
    unfold handshake_xx_initiator
    simp only [hsend, write_bytes_frame, if_neg (Nat.not_lt.mpr hlen), hread,
      validate_handshake_len, msg_b_len_eq, if_pos hne]
  · intro σ O kp input msg_a rest1 s1 plain s2 msg_b msg_c rest2
      hreadA hlenA hrecv hsend hlenB hreadC hne
    have hA : ¬ msg_a.length ≠ NOISE_HANDSHAKE_MSG_A_LEN := by
      rw [hlenA, msg_a_len_eq]; omega
    unfold handshake_xx_responder
    simp only [hreadA, validate_handshake_len, if_neg hA, hrecv, hsend,
      write_bytes_frame, if_neg (Nat.not_lt.mpr hlenB), hreadC,
      msg_c_len_eq, if_pos hne]

/-- Witness for C2 at a concrete 40-byte message A frame: the responder
fails with `invalid_handshake_message_length` for every oracle, here the
trivial one. -/
theorem C2_handshake_message_sizes_witness :
    handshake_xx_responder trivialOracle ⟨[], []⟩
        (u32beBytes 40 ++ List.replicate 40 0) =
      .error (.invalidHandshakeMessageLength "message_a" 48 40) := by
  have h := C2_handshake_message_sizes.2.1 Unit trivialOracle ⟨[], []⟩
    (u32beBytes 40 ++ List.replicate 40 0) (List.replicate 40 0) []
    (by rfl) (by decide)
  simpa using h

/-- C9: `SecureChannel::send` rejects any plaintext longer than
`MAX_FRAME_BYTES − MAC_LENGTH` = 65 520 bytes with
`transport_message_too_large`, before the cipher is invoked and before
any bytes are written (the error outcome is independent of the oracle
and the session state); a plaintext of at most 65 520 bytes passes the
gate and is encrypted and framed. -/
theorem C9_transport_send_limit {σ : Type} (O : NoiseOracle σ) (s : σ)
    (p : List Nat) :
    MAX_FRAME_BYTES - MAC_LENGTH = 65520 ∧
    (p.length > 65520 →
      SecureChannel.send O s p = .error (.transportMessageTooLarge p.length)) ∧
    (p.length ≤ 65520 →
      ∀ (s2 : σ) (cipher : List Nat),
        O.sendMessage s (p ++ List.replicate MAC_LENGTH 0) = .ok (s2, cipher) →
        cipher.length ≤ MAX_FRAME_BYTES →
        SecureChannel.send O s p = .ok (s2, u32beBytes cipher.length ++ cipher)) := by
  refine ⟨rfl, ?_, ?_⟩
  · intro hgt
    unfold SecureChannel.send
    rw [if_pos (by
      show p.length + MAC_LENGTH > MAX_FRAME_BYTES
      have h1 : MAC_LENGTH = 16 := rfl
      have h2 : MAX_FRAME_BYTES = 65536 := rfl
      omega)]
  · intro hle s2 cipher hsend hclen
    unfold SecureChannel.send
    rw [if_neg (by
      show ¬ p.length + MAC_LENGTH > MAX_FRAME_BYTES
      have h1 : MAC_LENGTH = 16 := rfl
      have h2 : MAX_FRAME_BYTES = 65536 := rfl
      omega)]
    simp only [hsend, write_bytes_frame, if_neg (Nat.not_lt.mpr hclen)]

/-- Witness for C9: a 65 521-byte plaintext is rejected locally; a
three-byte plaintext is framed (with the trivial oracle, which keeps the
padded buffer unchanged). -/
theorem C9_transport_send_limit_witness :
    SecureChannel.send trivialOracle () (List.replicate 65521 0) =
      .error (.transportMessageTooLarge 65521) ∧
    SecureChannel.send trivialOracle () [1, 2, 3] =
      .ok ((), u32beBytes 19 ++ ([1, 2, 3] ++ List.replicate MAC_LENGTH 0)) := by
  constructor
  · have h := (C9_transport_send_limit trivialOracle () (List.replicate 65521 0)).2.1
      (by rw [List.length_replicate]; decide)
    rw [List.length_replicate] at h
    exact h
  · have h := (C9_transport_send_limit trivialOracle () [1, 2, 3]).2.2
      (by decide) () ([1, 2, 3] ++ List.replicate MAC_LENGTH 0) rfl (by decide)
    simpa using h

/-! ## Handshake control messages — src/lib/src/types/handshake.rs -/

/-- `PROTOCOL_VERSION` (a `u16` constant equal to 1). -/
def PROTOCOL_VERSION : Nat := 1

/-- `HandshakeErrorCode`. -/
inductive HandshakeErrorCode where
  | unsupportedProtocolVersion
  | invalidRequest
  | agentIdInUse
  | agentUnavailable
  | unauthorized
  | internalError
deriving DecidableEq, Repr

/-- `HandshakeAccepted`. -/
structure HandshakeAccepted where
  protocol_version : Nat
  session_id : Nat
deriving DecidableEq, Repr

/-- `HandshakeRejected`. -/
structure HandshakeRejected where
  protocol_version : Nat
  code : HandshakeErrorCode
  message : String
deriving DecidableEq, Repr

/-- `HandshakeResponse`: tagged union on `status`. -/
inductive HandshakeResponse where
  | accepted (a : HandshakeAccepted)
  | rejected (r : HandshakeRejected)
deriving DecidableEq, Repr

/-- The `protocol_version` field of either response variant. -/
def HandshakeResponse.version : HandshakeResponse → Nat
  | .accepted a => a.protocol_version
  | .rejected r => r.protocol_version

/-- `AuthRequest`. -/
structure AuthRequest where
  method : String
  token : String
deriving DecidableEq, Repr

/-- `HandshakeRequest`: tagged union on `role`.  The `metadata`
`BTreeMap` is modelled as an association list. -/
inductive HandshakeRequest where
  | Agent (protocol_version : Nat) (agent_id : AgentId)
      (auth : Option AuthRequest) (metadata : List (String × String))
  | Client (protocol_version : Nat) (client_id : ClientId)
      (target_agent_id : AgentId) (auth : Option AuthRequest)
      (metadata : List (String × String))
deriving DecidableEq, Repr

/-- `HandshakeRequest::agent` helper constructor. -/
def HandshakeRequest.agent (agent_id : AgentId) : HandshakeRequest :=
  .Agent PROTOCOL_VERSION agent_id none []

/-- `HandshakeRequest::client` helper constructor. -/
def HandshakeRequest.client (client_id : ClientId) (target_agent_id : AgentId) :
    HandshakeRequest :=
  .Client PROTOCOL_VERSION client_id target_agent_id none []

/-- `HandshakeRequest::protocol_version`. -/
def HandshakeRequest.protocol_version : HandshakeRequest → Nat
  | .Agent v _ _ _ => v
  | .Client v _ _ _ _ => v

/-- Rendering of a validated (hence ASCII) identifier for log and error
messages, as the `Display` impls in ids.rs do. -/
def bytesToString (b : List Nat) : String :=
  String.mk (b.map Char.ofNat)

/-- `Display` for `AgentId`. -/
def AgentId.display (a : AgentId) : String := bytesToString a.value

/-! ## Server responses — src/server/src/responses.rs -/

/-- `send_accept` from responses.rs: the `HandshakeResponse` value
written to the stream (delivery success is modelled at call sites). -/
def send_accept (session_id : Nat) : HandshakeResponse :=
  .accepted ⟨PROTOCOL_VERSION, session_id⟩

/-- `send_reject` from responses.rs. -/
def send_reject (code : HandshakeErrorCode) (message : String) : HandshakeResponse :=
  .rejected ⟨PROTOCOL_VERSION, code, message⟩

/-- The `agent_id_in_use` rejection message of connection.rs. -/
def agentIdInUseMessage (agent_id : AgentId) : String :=
  "agent id " ++ squote ++ agent_id.display ++ squote ++ " is already connected"

/-- The `agent_unavailable` rejection message of connection.rs. -/
def agentUnavailableMessage (target_agent_id : AgentId) : String :=
  "target agent " ++ squote ++ target_agent_id.display ++ squote ++ " is not connected"

/-- The `unsupported_protocol_version` rejection message of
connection.rs. -/
def versionMismatchMessage (got : Nat) : String :=
  "server protocol version is " ++ toString PROTOCOL_VERSION ++ ", got " ++ toString got

/-- The `invalid_request` rejection message of connection.rs, carrying
the parse failure detail. -/
def invalidHandshakeMessage (detail : String) : String :=
  "invalid handshake: " ++ detail

/-! ## Server state — src/server/src/state.rs -/

/-- The agent registry `HashMap<AgentId, oneshot::Sender<TcpStream>>`,
modelled as an association list; `W` abstracts the one-shot sender.  The
server only ever inserts a key that is absent, so the list has unique
keys in every reachable state. -/
abbrev AgentRegistry (W : Type) := List (AgentId × W)

/-- `HashMap::get` / lookup. -/
def registryLookup {W : Type} : AgentRegistry W → AgentId → Option W
  | [], _ => none
  | (k2, w) :: rest, k => if k2 = k then some w else registryLookup rest k

/-- `HashMap::contains_key`. -/
def registryContains {W : Type} (reg : AgentRegistry W) (k : AgentId) : Bool :=
  (registryLookup reg k).isSome

/-- `HashMap::remove` (the map part; the removed value is what
`registryLookup` returned). -/
def registryRemove {W : Type} : AgentRegistry W → AgentId → AgentRegistry W
  | [], _ => []
  | (k2, w) :: rest, k => if k2 = k then rest else (k2, w) :: registryRemove rest k

/-- `HashMap::insert`: replacement semantics. -/
def registryInsert {W : Type} (k : AgentId) (w : W) (reg : AgentRegistry W) :
    AgentRegistry W :=
  (k, w) :: registryRemove reg k

/-- Unique keys, as a `HashMap` guarantees. -/
def RegistryWF {W : Type} (reg : AgentRegistry W) : Prop :=
  (reg.map Prod.fst).Nodup

theorem registryRemove_of_not_contains {W : Type} (reg : AgentRegistry W)
    (k : AgentId) (h : registryContains reg k = false) :
    registryRemove reg k = reg := by
  induction reg with
  | nil => rfl
  | cons head rest ih =>
    obtain ⟨k2, w⟩ := head
    simp only [registryContains, registryLookup] at h
    by_cases hk : k2 = k
    · rw [if_pos hk] at h
      simp at h
    · simp only [registryRemove, if_neg hk]
      rw [ih (by rw [if_neg hk] at h; exact h)]

theorem registryLookup_remove_ne {W : Type} (reg : AgentRegistry W)
    (t k : AgentId) (h : k ≠ t) :
    registryLookup (registryRemove reg t) k = registryLookup reg k := by
  induction reg with
  | nil => rfl
  | cons head rest ih =>
    obtain ⟨k2, w⟩ := head
    by_cases ht : k2 = t
    · subst ht
      show registryLookup (if k2 = k2 then rest else (k2, w) :: registryRemove rest k2) k
          = registryLookup ((k2, w) :: rest) k
      rw [if_pos rfl]
      show registryLookup rest k = if k2 = k then some w else registryLookup rest k
      rw [if_neg (fun he => h he.symm)]
    · simp only [registryRemove, if_neg ht, registryLookup]
      by_cases hk : k2 = k
      · rw [if_pos hk, if_pos hk]
      · rw [if_neg hk, if_neg hk, ih]

theorem registryLookup_eq_none_of_not_mem {W : Type} (reg : AgentRegistry W)
    (k : AgentId) (h : k ∉ reg.map Prod.fst) : registryLookup reg k = none := by
  induction reg with
  | nil => rfl
  | cons head rest ih =>
    obtain ⟨k2, w⟩ := head
    simp only [List.map_cons, List.mem_cons, not_or] at h
    simp only [registryLookup]
    rw [if_neg (fun he => h.1 he.symm)]
    exact ih h.2

theorem registryLookup_remove_self {W : Type} (reg : AgentRegistry W)
    (t : AgentId) (hwf : RegistryWF reg) :
    registryLookup (registryRemove reg t) t = none := by
  induction reg with
  | nil => rfl
  | cons head rest ih =>
    obtain ⟨k2, w⟩ := head
    simp only [RegistryWF, List.map_cons, List.nodup_cons] at hwf
    by_cases ht : k2 = t
    · subst ht
      simp only [registryRemove, if_pos rfl]
      exact registryLookup_eq_none_of_not_mem rest k2 hwf.1
    · simp only [registryRemove, if_neg ht, registryLookup, if_neg ht]
      exact ih hwf.2

/-- `ServerState::next_session_id` from state.rs:
`sessions.fetch_add(1, Ordering::Relaxed)` on an `AtomicU64` — returns
the current value and stores the successor, wrapping modulo `2 ^ 64`.
The counter starts at `AtomicU64::new(1)`. -/
def next_session_id (sessions : Nat) : Nat × Nat :=
  (sessions, (sessions + 1) % 2 ^ 64)

/-- The initial session counter value (`AtomicU64::new(1)`). -/
def sessionCounterInit : Nat := 1

/-- Counter value after `n` calls to `next_session_id`. -/
def counterAfter : Nat → Nat
  | 0 => sessionCounterInit
  | n + 1 => (next_session_id (counterAfter n)).2

/-- The session ID handed out by the `n`-th call (counting from 0). -/
def sessionIdAt (n : Nat) : Nat := (next_session_id (counterAfter n)).1

theorem two_pow_64_eq : (2 : Nat) ^ 64 = 18446744073709551616 := by norm_num

theorem counterAfter_closed (n : Nat) : counterAfter n = (1 + n) % 2 ^ 64 := by
  induction n with
  | zero => rfl
  | succ n ih =>
    show (counterAfter n + 1) % 2 ^ 64 = (1 + (n + 1)) % 2 ^ 64
    rw [ih, two_pow_64_eq]
    omega

theorem sessionIdAt_closed (n : Nat) : sessionIdAt n = (1 + n) % 2 ^ 64 := by
  unfold sessionIdAt next_session_id
  exact counterAfter_closed n

/-- C8 counterexample: the session counter is a wrapping `u64`, so the
assignment sequence is not strictly increasing over a whole process
lifetime and values do repeat: the `2 ^ 64`-th call (index `2 ^ 64 − 1`)
yields ID 0, smaller than the first ID 1, and the call at index `2 ^ 64`
yields 1 again — the same ID as the first call. -/
theorem C8_session_id_wrap_counterexample :
    sessionIdAt 0 = 1 ∧
    (0 < 2 ^ 64 - 1 ∧ sessionIdAt (2 ^ 64 - 1) < sessionIdAt 0) ∧
    sessionIdAt (2 ^ 64) = sessionIdAt 0 := by
  have h0 := sessionIdAt_closed 0
  have h1 := sessionIdAt_closed (2 ^ 64 - 1)
  have h2 := sessionIdAt_closed (2 ^ 64)
  rw [two_pow_64_eq] at h0 h1 h2 ⊢
  refine ⟨?_, ⟨?_, ?_⟩, ?_⟩ <;> omega

/-- C8 amended: session IDs start at 1 and are strictly increasing —
hence never repeated — across the first `2 ^ 64 − 1` assignments, at
which point the `u64` counter wraps (see the counterexample for the
wrap). -/
theorem C8_session_id_monotonic (m n : Nat) (hmn : m < n) (hn : n < 2 ^ 64 - 1) :
    sessionIdAt 0 = 1 ∧ sessionIdAt m < sessionIdAt n := by
  have h0 := sessionIdAt_closed 0
  have hm := sessionIdAt_closed m
  have hn2 := sessionIdAt_closed n
  rw [two_pow_64_eq] at h0 hm hn2 hn
  constructor <;> omega

/-- Witness for C8 (amended): the first two assigned IDs are 1 and 2. -/
theorem C8_session_id_monotonic_witness :
    sessionIdAt 0 = 1 ∧ sessionIdAt 0 < sessionIdAt 1 := by
  exact C8_session_id_monotonic 0 1 (by norm_num) (by norm_num)

/-! ## Connection handling — src/server/src/connection.rs -/

/-- Observable actions of a connection handler, in execution order. -/
inductive ServerEvent where
  | sentResponse (r : HandshakeResponse)
  | sendAcceptFailed
  | registryInserted (k : AgentId)
  | registryRemoved (k : AgentId)
  | handoffStream (delivered : Bool)
  | spliceRun
deriving DecidableEq, Repr

/-- Result of one connection-handler run: the ordered event trace, the
resulting registry, the session counter, and whether the handler
returned an error. -/
structure ConnOutcome (W : Type) where
  events : List ServerEvent
  reg : AgentRegistry W
  sessions : Nat
  failed : Bool
deriving DecidableEq, Repr

/-- `handle_client` from connection.rs.  `sendAcceptOk` models whether
writing the `accepted` frame to the client stream succeeds;
`waiterAlive` whether the one-shot send of the client stream to the
agent waiter succeeds (the agent may be gone; the stream is then
dropped).  The source's let-else over
`state.agents.write().await.remove(&target_agent_id)` is the
lookup/remove pair here. -/
def handle_client {W : Type} (reg : AgentRegistry W) (sessions : Nat)
    (sendAcceptOk : Bool) (waiterAlive : Bool) (client_id : ClientId)
    (target_agent_id : AgentId) : ConnOutcome W :=
  match registryLookup reg target_agent_id with
  | none =>
    { events := [.sentResponse (send_reject .agentUnavailable
        (agentUnavailableMessage target_agent_id))]
      reg := reg
      sessions := sessions
      failed := false }
  | some agent_waiter =>
    if sendAcceptOk then
      { events := [.registryRemoved target_agent_id,
          .sentResponse (send_accept (next_session_id sessions).1),
          .handoffStream waiterAlive]
        reg := registryRemove reg target_agent_id
        sessions := (next_session_id sessions).2
        failed := false }
    else
      { events := [.registryRemoved target_agent_id, .sendAcceptFailed,
          .registryInserted target_agent_id]
        reg := registryInsert target_agent_id agent_waiter
          (registryRemove reg target_agent_id)
        sessions := (next_session_id sessions).2
        failed := true }

/-- Outcome of the `tokio::select!` in `handle_agent` between the
one-shot receiver and the pre-pairing probe read of the agent socket. -/
inductive AgentWaitOutcome where
  | paired
  | waiterDropped
  | probeData
  | probeEof
  | probeErr
deriving DecidableEq, Repr

/-- Result of `copy_bidirectional` as observed by `handle_agent`. -/
inductive SpliceResult where
  | copied (agent_to_client client_to_agent : Nat)
  | ioError
deriving DecidableEq, Repr

/-- `handle_agent` from connection.rs.  `tx` is the fresh one-shot
sender; `sendAcceptOk` models delivery of the `accepted` frame; `wait`
the race between pairing and the probe read; `splice` the
`copy_bidirectional` result (only logged).  Every exit path after a
successful insert removes the registry entry. -/
def handle_agent {W : Type} (reg : AgentRegistry W) (sessions : Nat) (tx : W)
    (agent_id : AgentId) (sendAcceptOk : Bool) (wait : AgentWaitOutcome)
    (splice : SpliceResult) : ConnOutcome W :=
  if registryContains reg agent_id then
    { events := [.sentResponse (send_reject .agentIdInUse
        (agentIdInUseMessage agent_id))]
      reg := reg
      sessions := sessions
      failed := false }
  else if sendAcceptOk then
    match wait with
    | .paired =>
      { events := [.registryInserted agent_id,
          .sentResponse (send_accept (next_session_id sessions).1), .spliceRun,
          .registryRemoved agent_id]
        reg := registryRemove (registryInsert agent_id tx reg) agent_id
        sessions := (next_session_id sessions).2
        failed := false }
    | _ =>
      { events := [.registryInserted agent_id,
          .sentResponse (send_accept (next_session_id sessions).1),
          .registryRemoved agent_id]
        reg := registryRemove (registryInsert agent_id tx reg) agent_id
        sessions := (next_session_id sessions).2
        failed := false }
  else
    { events := [.registryInserted agent_id, .sendAcceptFailed,
        .registryRemoved agent_id]
      reg := registryRemove (registryInsert agent_id tx reg) agent_id
      sessions := (next_session_id sessions).2
      failed := true }

/-- C1: handling a client handshake removes the registry entry for
`target_agent_id` — taking ownership of the waiter — before the accept
is sent (the trace is exactly remove, accept, handoff); afterwards the
registry holds no entry for that key, so a second client requesting the
same target is rejected with `agent_unavailable` and cannot also claim
the agent. -/
theorem C1_client_claim_consumes_entry {W : Type} (reg : AgentRegistry W)
    (hwf : RegistryWF reg) (w : W) (target : AgentId)
    (ht : registryLookup reg target = some w) (sessions sessions2 : Nat)
    (alive alive2 ok2 : Bool) (cid cid2 : ClientId) :
    (handle_client reg sessions true alive cid target).events =
      [.registryRemoved target,
       .sentResponse (send_accept (next_session_id sessions).1),
       .handoffStream alive] ∧
    registryLookup (handle_client reg sessions true alive cid target).reg target = none ∧
    handle_client (handle_client reg sessions true alive cid target).reg
        sessions2 ok2 alive2 cid2 target =
      { events := [.sentResponse (send_reject .agentUnavailable
          (agentUnavailableMessage target))]
        reg := (handle_client reg sessions true alive cid target).reg
        sessions := sessions2
        failed := false } := by
  have h2 : registryLookup (registryRemove reg target) target = none :=
    registryLookup_remove_self reg target hwf
  refine ⟨?_, ?_, ?_⟩ <;> simp only [handle_client, ht, if_true, h2]

/-- Witness for C1 with a one-entry registry: the first claim empties
the slot and the second client is rejected. -/
theorem C1_client_claim_consumes_entry_witness :
    registryLookup (handle_client ([(⟨[97, 97, 97]⟩, 7)] : AgentRegistry Nat)
      5 true true ⟨[99, 99, 99]⟩ ⟨[97, 97, 97]⟩).reg ⟨[97, 97, 97]⟩ = none ∧
    (handle_client (handle_client ([(⟨[97, 97, 97]⟩, 7)] : AgentRegistry Nat)
        5 true true ⟨[99, 99, 99]⟩ ⟨[97, 97, 97]⟩).reg
        6 true true ⟨[100, 100, 100]⟩ ⟨[97, 97, 97]⟩).events =
      [.sentResponse (send_reject .agentUnavailable
        (agentUnavailableMessage ⟨[97, 97, 97]⟩))] := by
  have h := C1_client_claim_consumes_entry
    ([(⟨[97, 97, 97]⟩, 7)] : AgentRegistry Nat)
    (by simp only [RegistryWF]; decide) 7 ⟨[97, 97, 97]⟩
    (by decide) 5 6 true true true ⟨[99, 99, 99]⟩ ⟨[100, 100, 100]⟩
  exact ⟨h.2.1, by rw [h.2.2]⟩

/-- C4: when sending `accepted` fails, the registry is restored to its
pre-attempt state before the error is surfaced: the agent path removes
the entry it just inserted (recovering the original registry exactly,
since the id was absent on that path), and the client path re-inserts
the previously removed waiter under its old key, so every lookup is as
before; in both paths the handler then reports the error. -/
theorem C4_send_accept_rollback {W : Type} (reg : AgentRegistry W) (sessions : Nat) :
    (∀ (tx : W) (agent_id : AgentId) (wait : AgentWaitOutcome) (splice : SpliceResult),
      registryContains reg agent_id = false →
      (handle_agent reg sessions tx agent_id false wait splice).reg = reg ∧
      (handle_agent reg sessions tx agent_id false wait splice).events =
        [.registryInserted agent_id, .sendAcceptFailed, .registryRemoved agent_id] ∧
      (handle_agent reg sessions tx agent_id false wait splice).failed = true) ∧
    (∀ (w : W) (target : AgentId) (cid : ClientId) (alive : Bool),
      registryLookup reg target = some w →
      (∀ k, registryLookup (handle_client reg sessions false alive cid target).reg k =
        registryLookup reg k) ∧
      (handle_client reg sessions false alive cid target).events =
        [.registryRemoved target, .sendAcceptFailed, .registryInserted target] ∧
      (handle_client reg sessions false alive cid target).failed = true) := by
  constructor
  · intro tx agent_id wait splice hab
    have hreg : registryRemove (registryInsert agent_id tx reg) agent_id = reg := by
      show (if agent_id = agent_id then registryRemove reg agent_id
        else (agent_id, tx) :: registryRemove (registryRemove reg agent_id) agent_id) = reg
      rw [if_pos rfl, registryRemove_of_not_contains reg agent_id hab]
    refine ⟨?_, ?_, ?_⟩ <;>
      simp only [handle_agent, hab, Bool.false_eq_true, if_false, hreg]
  · intro w target cid alive ht
    refine ⟨?_, ?_, ?_⟩ <;>
      simp only [handle_client, ht, Bool.false_eq_true, if_false]
    intro k
    by_cases hk : k = target
    · subst hk
      show (if k = k then some w else _) = registryLookup reg k
      rw [if_pos rfl, ht]
    · show (if target = k then some w
          else registryLookup (registryRemove (registryRemove reg target) target) k) =
        registryLookup reg k
      rw [if_neg (fun he => hk he.symm), registryLookup_remove_ne _ _ _ hk,
        registryLookup_remove_ne _ _ _ hk]

/-- Witness for C4 on a concrete two-entry registry, exercising both the
agent-path and the client-path rollback. -/
theorem C4_send_accept_rollback_witness :
    (handle_agent ([(⟨[97, 97, 97]⟩, 7)] : AgentRegistry Nat) 5 9
      ⟨[98, 98, 98]⟩ false .paired (.copied 0 0)).reg = [(⟨[97, 97, 97]⟩, 7)] ∧
    registryLookup (handle_client ([(⟨[97, 97, 97]⟩, 7)] : AgentRegistry Nat)
      5 false true ⟨[99, 99, 99]⟩ ⟨[97, 97, 97]⟩).reg ⟨[97, 97, 97]⟩ = some 7 := by
  have h := C4_send_accept_rollback ([(⟨[97, 97, 97]⟩, 7)] : AgentRegistry Nat) 5
  refine ⟨(h.1 9 ⟨[98, 98, 98]⟩ .paired (.copied 0 0) (by decide)).1, ?_⟩
  rw [(h.2 7 ⟨[97, 97, 97]⟩ ⟨[99, 99, 99]⟩ true (by decide)).1 ⟨[97, 97, 97]⟩]
  decide

/-- The pre-dispatch logic of `handle_connection`: the first response
the server sends for a parse failure or a version mismatch (`none`
means the request is dispatched to a role handler). -/
inductive ReadRequestResult where
  | parsed (req : HandshakeRequest)
  | failure (detail : String)
deriving DecidableEq, Repr

/-- The response `handle_connection` sends before dispatching by role. -/
def handle_connection_first_response : ReadRequestResult → Option HandshakeResponse
  | .failure detail =>
    some (send_reject .invalidRequest (invalidHandshakeMessage detail))
  | .parsed req =>
    if req.protocol_version ≠ PROTOCOL_VERSION then
      some (send_reject .unsupportedProtocolVersion
        (versionMismatchMessage req.protocol_version))
    else
      none

/-- C10: every `HandshakeResponse` the server builds — accept or reject,
including the pre-dispatch rejections and every response appearing in a
client- or agent-handler trace — carries `protocol_version = 1`, the
server's own version; in particular the rejection for a mismatched
request version reports 1, not the requester's version. -/
theorem C10_responses_carry_server_version :
    (∀ sid, (send_accept sid).version = 1) ∧
    (∀ code msg, (send_reject code msg).version = 1) ∧
    (∀ rr resp, handle_connection_first_response rr = some resp →
      resp.version = 1) ∧
    (∀ req : HandshakeRequest, req.protocol_version ≠ 1 →
      handle_connection_first_response (.parsed req) =
        some (send_reject .unsupportedProtocolVersion
          (versionMismatchMessage req.protocol_version)) ∧
      ∀ resp, handle_connection_first_response (.parsed req) = some resp →
        resp.version ≠ req.protocol_version) ∧
    (∀ (W : Type) (reg : AgentRegistry W) sessions ok alive cid t r,
      ServerEvent.sentResponse r ∈ (handle_client reg sessions ok alive cid t).events →
      r.version = 1) ∧
    (∀ (W : Type) (reg : AgentRegistry W) sessions tx aid ok wait splice r,
      ServerEvent.sentResponse r ∈
        (handle_agent reg sessions tx aid ok wait splice).events →
      r.version = 1) := by
  refine ⟨fun _ => rfl, fun _ _ => rfl, ?_, ?_, ?_, ?_⟩
  · intro rr resp h
    cases rr with
    | failure detail =>
      simp only [handle_connection_first_response, Option.some_inj] at h
      rw [← h]; rfl
    | parsed req =>
      simp only [handle_connection_first_response] at h
      by_cases hv : req.protocol_version ≠ PROTOCOL_VERSION
      · rw [if_pos hv, Option.some_inj] at h
        rw [← h]; rfl
      · rw [if_neg hv] at h
        cases h
  · intro req hv
    have hv2 : req.protocol_version ≠ PROTOCOL_VERSION := hv
    refine ⟨by simp only [handle_connection_first_response, if_pos hv2], ?_⟩
    intro resp h
    simp only [handle_connection_first_response, if_pos hv2, Option.some_inj] at h
    rw [← h]
    show (1 : Nat) ≠ req.protocol_version
    exact fun he => hv he.symm
  · intro W reg sessions ok alive cid t r h
    unfold handle_client at h
    cases hl : registryLookup reg t with
    | none =>
      rw [hl] at h
      simp only [List.mem_cons, List.not_mem_nil, or_false] at h
      cases h; rfl
    | some w =>
      rw [hl] at h
      cases ok with
      | true =>
        simp only [if_true, List.mem_cons, List.not_mem_nil, or_false] at h
        rcases h with h | h | h <;> first | (cases h; rfl) | cases h
      | false =>
        simp only [Bool.false_eq_true, if_false, List.mem_cons,
          List.not_mem_nil, or_false] at h
        rcases h with h | h | h <;> cases h
  · intro W reg sessions tx aid ok wait splice r h
    unfold handle_agent at h
    by_cases hc : registryContains reg aid
    · rw [if_pos hc] at h
      simp only [List.mem_cons, List.not_mem_nil, or_false] at h
      cases h; rfl
    · rw [if_neg hc] at h
      cases ok with
      | true =>
        rw [if_pos rfl] at h
        cases wait with
        | paired =>
          simp only [List.mem_cons, List.not_mem_nil, or_false] at h
          rcases h with h | h | h | h <;> first | (cases h; rfl) | cases h
        | waiterDropped =>
          simp only [List.mem_cons, List.not_mem_nil, or_false] at h
          rcases h with h | h | h <;> first | (cases h; rfl) | cases h
        | probeData =>
          simp only [List.mem_cons, List.not_mem_nil, or_false] at h
          rcases h with h | h | h <;> first | (cases h; rfl) | cases h
        | probeEof =>
          simp only [List.mem_cons, List.not_mem_nil, or_false] at h
          rcases h with h | h | h <;> first | (cases h; rfl) | cases h
        | probeErr =>
          simp only [List.mem_cons, List.not_mem_nil, or_false] at h
          rcases h with h | h | h <;> first | (cases h; rfl) | cases h
      | false =>
        simp only [Bool.false_eq_true, if_false, List.mem_cons,
          List.not_mem_nil, or_false] at h
        rcases h with h | h | h <;> cases h

/-- Witness for C10 at concrete inputs: the rejection for a version-2
request and a response drawn from a concrete client-handler trace both
carry version 1. -/
theorem C10_responses_carry_server_version_witness :
    handle_connection_first_response
        (.parsed (HandshakeRequest.Agent 2 ⟨[97, 97, 97]⟩ none [])) =
      some (send_reject .unsupportedProtocolVersion (versionMismatchMessage 2)) ∧
    (send_reject .agentUnavailable (agentUnavailableMessage ⟨[97, 97, 97]⟩)).version = 1 := by
  constructor
  · exact (C10_responses_carry_server_version.2.2.2.1
      (HandshakeRequest.Agent 2 ⟨[97, 97, 97]⟩ none []) (by decide)).1
  · exact C10_responses_carry_server_version.2.1 .agentUnavailable
      (agentUnavailableMessage ⟨[97, 97, 97]⟩)

/-! ## Bidirectional splice — `copy_bidirectional` in `handle_agent`

The splice run by `handle_agent` after pairing is modelled as a
small-step transition system with one direction per copy half.  Each
direction independently copies a nonempty chunk from its source stream
to its destination, or observes EOF and closes; an I/O error from
either underlying stream fails the whole splice. -/

/-- One splice direction: bytes not yet read from the source stream,
bytes already written to the destination stream, and whether this
direction has observed EOF and shut down. -/
structure SpliceDir where
  src : List Nat
  delivered : List Nat
  closed : Bool
deriving DecidableEq, Repr

/-- State of the full-duplex splice between the agent stream and the
client stream. -/
structure SpliceState where
  agentToClient : SpliceDir
  clientToAgent : SpliceDir
  failed : Bool
deriving DecidableEq, Repr

/-- The splice at the moment of pairing: nothing copied yet, both
directions open. -/
def spliceInit (agentBytes clientBytes : List Nat) : SpliceState :=
  ⟨⟨agentBytes, [], false⟩, ⟨clientBytes, [], false⟩, false⟩

/-- One scheduling step of the splice.  Either direction, while open and
the splice not failed, copies a nonempty chunk or closes on EOF of its
source; an I/O error may strike any unfinished splice. -/
inductive SpliceStep : SpliceState → SpliceState → Prop where
  | copyA2C (s : SpliceState) (k : Nat) (hk : 0 < k) (hf : s.failed = false)
      (hc : s.agentToClient.closed = false) (hne : s.agentToClient.src ≠ []) :
      SpliceStep s ⟨⟨s.agentToClient.src.drop k,
        s.agentToClient.delivered ++ s.agentToClient.src.take k, false⟩,
        s.clientToAgent, false⟩
  | eofA2C (s : SpliceState) (hf : s.failed = false)
      (hc : s.agentToClient.closed = false) (he : s.agentToClient.src = []) :
      SpliceStep s ⟨⟨[], s.agentToClient.delivered, true⟩, s.clientToAgent, false⟩
  | copyC2A (s : SpliceState) (k : Nat) (hk : 0 < k) (hf : s.failed = false)
      (hc : s.clientToAgent.closed = false) (hne : s.clientToAgent.src ≠ []) :
      SpliceStep s ⟨s.agentToClient, ⟨s.clientToAgent.src.drop k,
        s.clientToAgent.delivered ++ s.clientToAgent.src.take k, false⟩, false⟩
  | eofC2A (s : SpliceState) (hf : s.failed = false)
      (hc : s.clientToAgent.closed = false) (he : s.clientToAgent.src = []) :
      SpliceStep s ⟨s.agentToClient, ⟨[], s.clientToAgent.delivered, true⟩, false⟩
  | ioErr (s : SpliceState) (hf : s.failed = false)
      (hnd : ¬(s.agentToClient.closed = true ∧ s.clientToAgent.closed = true)) :
      SpliceStep s ⟨s.agentToClient, s.clientToAgent, true⟩

/-- Reachability of splice states over any interleaving. -/
def SpliceReaches : SpliceState → SpliceState → Prop :=
  Relation.ReflTransGen SpliceStep

/-- C3: after a client is paired, `handle_agent` runs the splice between
the agent stream and the client stream (the trace is insert, accept,
splice, remove); in the splice each direction makes progress
independently of the other (full duplex, no head-of-line blocking), the
bytes delivered in each direction are exactly the prefix of that
direction's source consumed so far — all of it once the direction
closes at EOF — and the splice stops exactly when an I/O error occurred
or both directions have reported EOF. -/
theorem C3_full_duplex_splice :
    (∀ (W : Type) (reg : AgentRegistry W) (sessions : Nat) (tx : W)
        (aid : AgentId) (splice : SpliceResult),
      registryContains reg aid = false →
      (handle_agent reg sessions tx aid true .paired splice).events =
        [.registryInserted aid,
         .sentResponse (send_accept (next_session_id sessions).1),
         .spliceRun, .registryRemoved aid]) ∧
    (∀ s : SpliceState, s.failed = false → s.agentToClient.closed = false →
      ∃ s2, SpliceStep s s2 ∧ s2.clientToAgent = s.clientToAgent ∧
        s2.failed = false) ∧
    (∀ s : SpliceState, s.failed = false → s.clientToAgent.closed = false →
      ∃ s2, SpliceStep s s2 ∧ s2.agentToClient = s.agentToClient ∧
        s2.failed = false) ∧
    (∀ (a c : List Nat) (s : SpliceState), SpliceReaches (spliceInit a c) s →
      s.agentToClient.delivered ++ s.agentToClient.src = a ∧
      s.clientToAgent.delivered ++ s.clientToAgent.src = c ∧
      (s.agentToClient.closed = true → s.agentToClient.delivered = a) ∧
      (s.clientToAgent.closed = true → s.clientToAgent.delivered = c)) ∧
    (∀ s : SpliceState, (¬ ∃ s2, SpliceStep s s2) ↔
      (s.failed = true ∨
        (s.agentToClient.closed = true ∧ s.clientToAgent.closed = true))) := by
  refine ⟨?_, ?_, ?_, ?_, ?_⟩
  · intro W reg sessions tx aid splice hab
    simp only [handle_agent, hab, Bool.false_eq_true, if_false, if_true]
  · intro s hf hc
    cases hsrc : s.agentToClient.src with
    | nil => exact ⟨_, SpliceStep.eofA2C s hf hc hsrc, rfl, rfl⟩
    | cons b rest =>
      exact ⟨_, SpliceStep.copyA2C s 1 (by norm_num) hf hc
        (by rw [hsrc]; exact List.cons_ne_nil b rest), rfl, rfl⟩
  · intro s hf hc
    cases hsrc : s.clientToAgent.src with
    | nil => exact ⟨_, SpliceStep.eofC2A s hf hc hsrc, rfl, rfl⟩
    | cons b rest =>
      exact ⟨_, SpliceStep.copyC2A s 1 (by norm_num) hf hc
        (by rw [hsrc]; exact List.cons_ne_nil b rest), rfl, rfl⟩
  · intro a c s h
    induction h with
    | refl =>
      exact ⟨rfl, rfl, fun h => Bool.noConfusion h, fun h => Bool.noConfusion h⟩
    | tail hreach hstep ih =>
      obtain ⟨ih1, ih2, ih3, ih4⟩ := ih
      cases hstep with
      | copyA2C k hk hf hc hne =>
        refine ⟨?_, ih2, fun h => Bool.noConfusion h, ih4⟩
        dsimp only
        rw [List.append_assoc, List.take_append_drop]
        exact ih1
      | eofA2C hf hc he =>
        rw [he, List.append_nil] at ih1
        refine ⟨?_, ih2, fun _ => ih1, ih4⟩
        dsimp only
        rw [List.append_nil]
        exact ih1
      | copyC2A k hk hf hc hne =>
        refine ⟨ih1, ?_, ih3, fun h => Bool.noConfusion h⟩
        dsimp only
        rw [List.append_assoc, List.take_append_drop]
        exact ih2
      | eofC2A hf hc he =>
        rw [he, List.append_nil] at ih2
        refine ⟨ih1, ?_, ih3, fun _ => ih2⟩
        dsimp only
        rw [List.append_nil]
        exact ih2
      | ioErr hf hnd =>
        exact ⟨ih1, ih2, ih3, ih4⟩
  · intro s
    constructor
    · intro hterm
      cases hsf : s.failed with
      | true => exact .inl rfl
      | false =>
        right
        cases hc1 : s.agentToClient.closed with
        | true =>
          cases hc2 : s.clientToAgent.closed with
          | true => exact ⟨rfl, rfl⟩
          | false =>
            exact absurd ⟨_, SpliceStep.ioErr s hsf
              (fun hb => by rw [hc2] at hb; cases hb.2)⟩ hterm
        | false =>
          exact absurd ⟨_, SpliceStep.ioErr s hsf
            (fun hb => by rw [hc1] at hb; cases hb.1)⟩ hterm
    · rintro h ⟨s2, hstep⟩
      cases hstep with
      | copyA2C k hk hf hc hne =>
        rcases h with hf2 | ⟨h1, h2⟩
        · rw [hf] at hf2; cases hf2
        · rw [hc] at h1; cases h1
      | eofA2C hf hc he =>
        rcases h with hf2 | ⟨h1, h2⟩
        · rw [hf] at hf2; cases hf2
        · rw [hc] at h1; cases h1
      | copyC2A k hk hf hc hne =>
        rcases h with hf2 | ⟨h1, h2⟩
        · rw [hf] at hf2; cases hf2
        · rw [hc] at h2; cases h2
      | eofC2A hf hc he =>
        rcases h with hf2 | ⟨h1, h2⟩
        · rw [hf] at hf2; cases hf2
        · rw [hc] at h2; cases h2
      | ioErr hf hnd =>
        rcases h with hf2 | hb
        · rw [hf] at hf2; cases hf2
        · exact hnd hb

/-- Witness for C3 at concrete states: the paired trace on an empty
registry; an agent-to-client step from a live state; the invariant at
the initial state; and terminality of the state in which both
directions have closed. -/
theorem C3_full_duplex_splice_witness :
    (handle_agent ([] : AgentRegistry Nat) 5 9 ⟨[97, 97, 97]⟩ true .paired
        (.copied 3 4)).events =
      [.registryInserted ⟨[97, 97, 97]⟩,
       .sentResponse (send_accept (next_session_id 5).1),
       .spliceRun, .registryRemoved ⟨[97, 97, 97]⟩] ∧
    (∃ s2, SpliceStep (spliceInit [1, 2] [3]) s2 ∧
      s2.clientToAgent = (spliceInit [1, 2] [3]).clientToAgent ∧
      s2.failed = false) ∧
    (spliceInit [1, 2] [3]).agentToClient.delivered ++
      (spliceInit [1, 2] [3]).agentToClient.src = [1, 2] ∧
    ¬ ∃ s2, SpliceStep ⟨⟨[], [5], true⟩, ⟨[], [6], true⟩, false⟩ s2 := by
  refine ⟨?_, ?_, ?_, ?_⟩
  · exact C3_full_duplex_splice.1 Nat [] 5 9 ⟨[97, 97, 97]⟩ (.copied 3 4)
      (by decide)
  · exact C3_full_duplex_splice.2.1 (spliceInit [1, 2] [3]) rfl rfl
  · exact (C3_full_duplex_splice.2.2.2.1 [1, 2] [3] (spliceInit [1, 2] [3])
      Relation.ReflTransGen.refl).1
  · exact (C3_full_duplex_splice.2.2.2.2
      ⟨⟨[], [5], true⟩, ⟨[], [6], true⟩, false⟩).mpr (.inr ⟨rfl, rfl⟩)

/-! ## Agent driver — src/agent/src/app.rs -/

/-- One read event on the agent's connected socket after the handshake:
a nonempty chunk (with the outcome of the `str::from_utf8` check the
driver applies before logging it), EOF, or a read error. -/
inductive AgentReadEvent where
  | chunk (bytes : List Nat) (utf8Ok : Bool)
  | eofEvent
  | readErr
deriving DecidableEq, Repr

/-- Errors surfaced by `connection_loop`. -/
inductive ConnLoopError where
  | ioError
  | utf8Error
  | rejectedByServer (code : HandshakeErrorCode) (message : String)
deriving DecidableEq, Repr

/-- Frames the agent driver writes to the server. -/
inductive WireWrite where
  | jsonFrame (req : HandshakeRequest)
  | bytesFrame (payload : List Nat)
deriving DecidableEq, Repr

/-- The post-accept read loop of `connection_loop`: read chunks and log
them (propagating a UTF-8 decode failure), return success on EOF,
propagate read errors.  A real blocking read always yields an event, so
well-formed event streams end with `eofEvent` or `readErr`; the `[]`
case is unreachable and returns success. -/
def agent_read_loop : List AgentReadEvent → Except ConnLoopError Unit
  | [] => .ok ()
  | .chunk _ true :: rest => agent_read_loop rest
  | .chunk _ false :: _ => .error .utf8Error
  | .eofEvent :: _ => .ok ()
  | .readErr :: _ => .error .ioError

/-- `connection_loop` from app.rs: write the agent handshake request,
read the framed response, and on accept enter the raw read/log loop.
Returns the frames written to the stream alongside the result.  The
driver performs no Noise handshake: after accept it only reads. -/
def connection_loop (agent_id : AgentId)
    (response : Except ProtocolError HandshakeResponse)
    (reads : List AgentReadEvent) :
    List WireWrite × Except ConnLoopError Unit :=
  ([.jsonFrame (HandshakeRequest.agent agent_id)],
    match response with
    | .error _ => .error .ioError
    | .ok (.accepted _) => agent_read_loop reads
    | .ok (.rejected r) => .error (.rejectedByServer r.code r.message))

/-- Outcome of one iteration of the retry loop in `run`. -/
inductive IterOutcome where
  | connectFailed
  | connFinished (result : Except ConnLoopError Unit)
  | shutdownRequested
deriving Repr

/-- What `run` does after an iteration. -/
inductive DriverAction where
  | sleepSecsThenReconnect (secs : Nat)
  | exitLoop
deriving DecidableEq, Repr

/-- The bottom of the `run` loop in app.rs: a shutdown signal exits;
every other iteration outcome — connect failure, a connection error,
rejection, or EOF — sleeps one second and reconnects. -/
def run_iteration_after : IterOutcome → DriverAction
  | .shutdownRequested => .exitLoop
  | .connectFailed => .sleepSecsThenReconnect 1
  | .connFinished _ => .sleepSecsThenReconnect 1

/-- The default agent id, `agent-default`, in bytes. -/
def agentDefaultId : AgentId :=
  ⟨[97, 103, 101, 110, 116, 45, 100, 101, 102, 97, 117, 108, 116]⟩

/-- C5: the retry half of the claim holds — a rejection is an error, and
every non-shutdown iteration is followed by a one-second sleep and a
reconnect — but the Noise half does not: the only frame
`connection_loop` ever writes is the handshake request, whatever the
response and subsequent events; in particular at the failing input —
accept followed by the paired client's 48-byte Noise message A — the
driver writes no message B (no bytes frame at all) and merely consumes
bytes until EOF, so it does not run the Noise XX responder. -/
theorem C5_agent_driver_no_noise_responder :
    (∀ (agent_id : AgentId) (response : Except ProtocolError HandshakeResponse)
        (reads : List AgentReadEvent),
      (connection_loop agent_id response reads).1 =
        [.jsonFrame (HandshakeRequest.agent agent_id)]) ∧
    connection_loop agentDefaultId (.ok (.accepted ⟨1, 1⟩))
        [.chunk (List.replicate 48 0) true, .eofEvent] =
      ([.jsonFrame (HandshakeRequest.agent agentDefaultId)], .ok ()) ∧
    (∀ r : HandshakeRejected,
      (connection_loop agentDefaultId (.ok (.rejected r)) []).2 =
        .error (.rejectedByServer r.code r.message)) ∧
    run_iteration_after .connectFailed = .sleepSecsThenReconnect 1 ∧
    (∀ res, run_iteration_after (.connFinished res) = .sleepSecsThenReconnect 1) ∧
    run_iteration_after .shutdownRequested = .exitLoop := by
  exact ⟨fun _ _ _ => rfl, rfl, fun _ => rfl, rfl, fun _ => rfl, rfl⟩

end Alaric
